import Mathlib

/-!
Shallow embedding of the go-core-fx/config layered configuration loader
(src/config.go, src/options.go and the Duration helper), together with
proofs of the specification claims about it.

Configuration values are modelled by `JVal`; the map[string]interface
trees that koanf keeps are association lists `Obj`.  Go maps have
pairwise-distinct keys and no observable order, so theorems about
arbitrary trees carry `valNodup` hypotheses and the merge of a map is
modelled as the fold over its binding list.  External dependencies (file
reads, the YAML parser, gotenv, os.Environ, time.ParseDuration) enter as
oracle inputs in a `World`, while every function of the repository itself
(Load, loadFromYAML, loadDotenv, loadEnv, envTransform, WithLocalYAML,
the options accumulator, Duration.UnmarshalText) as well as the behaviour
of its direct library calls that the claims depend on (koanf maps.Merge,
the double-underscore unflattening, and the value grammar of Go
encoding/json used by json.Unmarshal) are translated concretely.
-/

namespace Config

/-- A configuration value: the Go interface values produced by the
YAML/JSON parsers and koanf (string, number, bool, null, []any,
map[string]any).  Numbers carry their literal token; no claim depends on
the float64 conversion of that token. -/
inductive JVal where
  | str (s : String)
  | num (lit : String)
  | bool (b : Bool)
  | null
  | arr (xs : List JVal)
  | obj (fields : List (String × JVal))

/-- A Go map[string]interface tree, as an association list. -/
abbrev Obj := List (String × JVal)

/-- Indexing a Go map: `m[k]`. -/
def lookup (o : Obj) (k : String) : Option JVal :=
  match o with
  | [] => none
  | (k0, v0) :: rest => if k0 = k then some v0 else lookup rest k

/-- Go map assignment `m[k] = v` on the association list. -/
def upsert (o : Obj) (k : String) (v : JVal) : Obj :=
  match o with
  | [] => [(k, v)]
  | (k0, v0) :: rest => if k0 = k then (k0, v) :: rest else (k0, v0) :: upsert rest k v

mutual
/-- koanf maps.Merge of an incoming value `s` over an existing value `d`:
two maps merge key by key, any other combination is overwritten by `s`
wholesale. -/
def mergeVal (d s : JVal) : JVal :=
  match d, s with
  | .obj d0, .obj s0 => .obj (mergeObj d0 s0)
  | _, _ => s
termination_by structural s

/-- koanf maps.Merge: every binding of the incoming map `s` is written
into the existing map `d` (recursing when both sides hold maps). -/
def mergeObj (d s : Obj) : Obj :=
  match s with
  | [] => d
  | (k, v) :: rest =>
      mergeObj (upsert d k (match lookup d k with
        | some old => mergeVal old v
        | none => v)) rest
termination_by structural s
end

/-- Resolution of a dot-delimited key path in the merged tree (how koanf
and the mapstructure decoder address `a.b.c`). -/
def lookupPath (v : JVal) (p : List String) : Option JVal :=
  match p with
  | [] => some v
  | k :: ks =>
    match v with
    | .obj o =>
      match lookup o k with
      | some v0 => lookupPath v0 ks
      | none => none
    | _ => none

/-- Whether the value at `v` is a map. -/
def isObjV : JVal → Bool
  | .obj _ => true
  | _ => false

/-- Merging `s` over another tree cannot disturb path `p`: along `p` the
tree `s` holds only maps and runs out of bindings before reaching the end
of `p`. -/
def untouched (s : JVal) (p : List String) : Bool :=
  match p with
  | [] => false
  | k :: ks =>
    match s with
    | .obj o =>
      match lookup o k with
      | some v => untouched v ks
      | none => true
    | _ => false

mutual
/-- Every map level of a value has pairwise-distinct keys; this is true of
every tree a Go map can denote. -/
def valNodup : JVal → Bool
  | .obj o => objNodup o
  | _ => true
termination_by structural v => v

/-- Key distinctness of one map level together with `valNodup` of the
values below it. -/
def objNodup : Obj → Bool
  | [] => true
  | (k, v) :: rest => (lookup rest k).isNone && valNodup v && objNodup rest
termination_by structural o => o
end

/-! Character-level string helpers, modelling the Go strings package
functions the code calls (byte/rune level operations on ASCII data). -/

/-- Whether `p` is a leading segment of `s`. -/
def hasPrefixL (p s : List Char) : Bool :=
  match p, s with
  | [], _ => true
  | _ :: _, [] => false
  | a :: ps, b :: ss => a = b && hasPrefixL ps ss

/-- strings.HasPrefix. -/
def hasPrefixS (s p : String) : Bool := hasPrefixL p.data s.data

/-- strings.HasSuffix. -/
def hasSuffixS (s p : String) : Bool := hasPrefixL p.data.reverse s.data.reverse

/-- Occurrence of `n` anywhere in `h` (strings.Contains). -/
def hasSubstrL (n : List Char) : List Char → Bool
  | [] => n.isEmpty
  | c :: t => hasPrefixL n (c :: t) || hasSubstrL n t

/-- strings.Contains on strings. -/
def hasSubstrS (h n : String) : Bool := hasSubstrL n.data h.data

/-- Lower-casing of one character (the ASCII case of unicode.ToLower). -/
def lowerChar (c : Char) : Char :=
  if 'A' ≤ c && c ≤ 'Z' then Char.ofNat (c.toNat + 32) else c

/-- strings.ToLower, over the ASCII letters environment keys use. -/
def lowerKey (s : String) : String := String.mk (s.data.map lowerChar)

/-- Go unicode.IsSpace over the ASCII whitespace characters; used only to
state the trimming that the specification text claims. -/
def isSpaceChar (c : Char) : Bool :=
  c = ' ' || c = '\t' || c = '\n' || c = '\r' || c = '\x0b' || c = '\x0c'

/-- strings.TrimSpace.  This appears in the specification sentence about
value coercion; the code itself never trims. -/
def trimSpace (s : String) : String :=
  String.mk (((s.data.dropWhile isSpaceChar).reverse.dropWhile isSpaceChar).reverse)

/-! A value parser for Go encoding/json, used to model the two
json.Unmarshal calls inside envTransform.  The parser works on character
lists with a fuel argument; `jsonParseObj`/`jsonParseArr` hand it fuel
that exceeds the input length, which is enough because every recursive
step follows the consumption of at least one character. -/

/-- JSON whitespace (space, tab, newline, carriage return). -/
def isJsonWS (c : Char) : Bool := c = ' ' || c = '\t' || c = '\n' || c = '\r'

def skipWS (cs : List Char) : List Char := cs.dropWhile isJsonWS

def isDigit (c : Char) : Bool := '0' ≤ c && c ≤ '9'

def isHex (c : Char) : Bool :=
  isDigit c || ('a' ≤ c && c ≤ 'f') || ('A' ≤ c && c ≤ 'F')

def hexVal (c : Char) : Nat :=
  if isDigit c then c.toNat - '0'.toNat
  else if 'a' ≤ c && c ≤ 'f' then c.toNat - 'a'.toNat + 10
  else c.toNat - 'A'.toNat + 10

/-- Four hex digits of a \u escape. -/
def pHex4 (cs : List Char) : Option (Nat × List Char) :=
  match cs with
  | a :: b :: c :: d :: rest =>
    if isHex a && isHex b && isHex c && isHex d then
      some ((((hexVal a * 16 + hexVal b) * 16 + hexVal c) * 16 + hexVal d), rest)
    else none
  | _ => none

/-- Body of a JSON string after the opening quote, with the encoding/json
escapes; surrogate halves that do not pair are replaced by U+FFFD. -/
def pStrBody (fuel : Nat) (cs : List Char) (acc : List Char) : Option (String × List Char) :=
  match fuel with
  | 0 => none
  | fuel + 1 =>
    match cs with
    | [] => none
    | '"' :: rest => some (String.mk acc.reverse, rest)
    | '\\' :: e :: rest =>
      match e with
      | '"' => pStrBody fuel rest ('"' :: acc)
      | '\\' => pStrBody fuel rest ('\\' :: acc)
      | '/' => pStrBody fuel rest ('/' :: acc)
      | 'b' => pStrBody fuel rest ('\x08' :: acc)
      | 'f' => pStrBody fuel rest ('\x0c' :: acc)
      | 'n' => pStrBody fuel rest ('\n' :: acc)
      | 'r' => pStrBody fuel rest ('\r' :: acc)
      | 't' => pStrBody fuel rest ('\t' :: acc)
      | 'u' =>
        match pHex4 rest with
        | none => none
        | some (n, r2) =>
          if n < 0xD800 || 0xE000 ≤ n then pStrBody fuel r2 (Char.ofNat n :: acc)
          else if n ≤ 0xDBFF then
            match r2 with
            | '\\' :: 'u' :: r3 =>
              match pHex4 r3 with
              | some (n2, r4) =>
                if 0xDC00 ≤ n2 && n2 ≤ 0xDFFF then
                  pStrBody fuel r4
                    (Char.ofNat (0x10000 + (n - 0xD800) * 0x400 + (n2 - 0xDC00)) :: acc)
                else pStrBody fuel r2 ('�' :: acc)
              | none => pStrBody fuel r2 ('�' :: acc)
            | _ => pStrBody fuel r2 ('�' :: acc)
          else pStrBody fuel r2 ('�' :: acc)
      | _ => none
    | c :: rest =>
      if c.toNat < 0x20 then none else pStrBody fuel rest (c :: acc)

/-- Fraction part of a JSON number, possibly empty. -/
def pFracPart (cs : List Char) : Option (List Char × List Char) :=
  match cs with
  | '.' :: r =>
    match r.takeWhile isDigit with
    | [] => none
    | ds => some ('.' :: ds, r.dropWhile isDigit)
  | _ => some ([], cs)

/-- Exponent part of a JSON number, possibly empty. -/
def pExpPart (cs : List Char) : Option (List Char × List Char) :=
  match cs with
  | c :: r =>
    if c = 'e' || c = 'E' then
      let sr := match r with
        | s :: rr => if s = '+' || s = '-' then ([s], rr) else (([] : List Char), r)
        | [] => ([], r)
      match sr.2.takeWhile isDigit with
      | [] => none
      | ds => some (c :: (sr.1 ++ ds), sr.2.dropWhile isDigit)
    else some ([], cs)
  | [] => some ([], cs)

/-- Completion of a number token after its integer digits. -/
def pNumTail (sgn intPart cs : List Char) : Option (JVal × List Char) :=
  match pFracPart cs with
  | none => none
  | some (fr, cs2) =>
    match pExpPart cs2 with
    | none => none
    | some (ex, cs3) => some (JVal.num (String.mk (sgn ++ intPart ++ fr ++ ex)), cs3)

/-- A JSON number token: optional minus, `0` or a nonzero-led digit run,
optional fraction and exponent. -/
def pNum (cs : List Char) : Option (JVal × List Char) :=
  let sc := match cs with
    | '-' :: r => ([('-' : Char)], r)
    | _ => (([] : List Char), cs)
  match sc.2 with
  | c :: rest =>
    if c = '0' then pNumTail sc.1 ['0'] rest
    else if isDigit c then
      pNumTail sc.1 (c :: rest.takeWhile isDigit) (rest.dropWhile isDigit)
    else none
  | [] => none

mutual
/-- One JSON value, as scanned by encoding/json. -/
def pVal (fuel : Nat) (cs : List Char) : Option (JVal × List Char) :=
  match fuel with
  | 0 => none
  | fuel + 1 =>
    match skipWS cs with
    | '\x7b' :: rest => pMembers fuel (skipWS rest) [] true
    | '[' :: rest => pElems fuel (skipWS rest) [] true
    | '"' :: rest => (pStrBody fuel rest []).map (fun r => (JVal.str r.1, r.2))
    | 't' :: 'r' :: 'u' :: 'e' :: rest => some (JVal.bool true, rest)
    | 'f' :: 'a' :: 'l' :: 's' :: 'e' :: rest => some (JVal.bool false, rest)
    | 'n' :: 'u' :: 'l' :: 'l' :: rest => some (JVal.null, rest)
    | other => pNum other

/-- Members of a JSON object after the opening brace; a duplicated key
keeps the later value, as json.Unmarshal into a Go map does. -/
def pMembers (fuel : Nat) (cs : List Char) (acc : Obj) (first : Bool) :
    Option (JVal × List Char) :=
  match fuel with
  | 0 => none
  | fuel + 1 =>
    match cs with
    | '\x7d' :: rest => if first then some (JVal.obj acc, rest) else none
    | '"' :: rest =>
      match pStrBody fuel rest [] with
      | none => none
      | some (key, r1) =>
        match skipWS r1 with
        | ':' :: r2 =>
          match pVal fuel r2 with
          | none => none
          | some (v, r3) =>
            match skipWS r3 with
            | ',' :: r4 => pMembers fuel (skipWS r4) (upsert acc key v) false
            | '\x7d' :: r4 => some (JVal.obj (upsert acc key v), r4)
            | _ => none
        | _ => none
    | _ => none

/-- Elements of a JSON array after the opening bracket. -/
def pElems (fuel : Nat) (cs : List Char) (acc : List JVal) (first : Bool) :
    Option (JVal × List Char) :=
  match fuel with
  | 0 => none
  | fuel + 1 =>
    match cs with
    | ']' :: rest => if first then some (JVal.arr acc.reverse, rest) else none
    | _ =>
      match pVal fuel cs with
      | none => none
      | some (v, r1) =>
        match skipWS r1 with
        | ',' :: r2 => pElems fuel (skipWS r2) (v :: acc) false
        | ']' :: r2 => some (JVal.arr (v :: acc).reverse, r2)
        | _ => none
end

/-- json.Unmarshal of `s` into a map[string]any: the input must be exactly
one JSON object plus whitespace.  (Unmarshal also accepts a bare `null`
for a map target, but both call sites first check that `s` starts with a
brace, which excludes it.) -/
def jsonParseObj (s : String) : Option Obj :=
  match pVal (2 * s.length + 4) s.data with
  | some (JVal.obj o, rest) => if skipWS rest = [] then some o else none
  | _ => none

/-- json.Unmarshal of `s` into a []any: exactly one JSON array plus
whitespace (`null` again excluded by the bracket guard at the call site). -/
def jsonParseArr (s : String) : Option (List JVal) :=
  match pVal (2 * s.length + 4) s.data with
  | some (JVal.arr a, rest) => if skipWS rest = [] then some a else none
  | _ => none

/-- envTransform from src/config.go: lower-case the whole key; a value
with a brace prefix and suffix that parses as a JSON object becomes a
map, failing that a value with a bracket prefix and suffix that parses as
a JSON array becomes a list, and otherwise the value stays the original
string. -/
def envTransform (k v : String) : String × JVal :=
  let k2 := lowerKey k
  match (if hasPrefixS v "\x7b" && hasSuffixS v "\x7d" then jsonParseObj v else none) with
  | some m => (k2, JVal.obj m)
  | none =>
    match (if hasPrefixS v "[" && hasSuffixS v "]" then jsonParseArr v else none) with
    | some a => (k2, JVal.arr a)
    | none => (k2, JVal.str v)

/-- strings.Split of a key on the double-underscore delimiter. -/
def splitKeyGo : List Char → List String
  | [] => [""]
  | '_' :: '_' :: rest => "" :: splitKeyGo rest
  | c :: rest =>
    match splitKeyGo rest with
    | s :: ss => (String.mk [c] ++ s) :: ss
    | [] => [String.mk [c]]

/-- The nesting delimiter split that the dotenv parser and the env
provider both apply to transformed keys. -/
def splitKey (s : String) : List String := splitKeyGo s.data

/-- The nested single-path map for one transformed key. -/
def pathSingleton : List String → JVal → Obj
  | [], _ => []
  | [k], v => [(k, v)]
  | k :: rest, v => [(k, JVal.obj (pathSingleton rest v))]

/-- The nested map an environment-style source hands to koanf: transform
each raw pair (dropping a pair whose transformed key is empty, as the
koanf providers do), split the key on the double underscore and collect
the resulting single-path maps. -/
def envPairsTree (pairs : List (String × String)) : Obj :=
  pairs.foldl (fun acc kv =>
    let r := envTransform kv.1 kv.2
    if r.1 = "" then acc
    else mergeObj acc (pathSingleton (splitKey r.1) r.2)) []

/-- Go error values as this package creates and inspects them: the
os.ErrNotExist sentinel, opaque leaf errors of the libraries, and the
result of fmt.Errorf with a %w verb. -/
inductive GoErr where
  | notExist
  | base (msg : String)
  | wrapped (tag : String) (cause : GoErr)
deriving DecidableEq

/-- errors.Is(e, os.ErrNotExist): unwrap through the wrap chain. -/
def GoErr.isNotExist : GoErr → Bool
  | .notExist => true
  | .base _ => false
  | .wrapped _ c => c.isNotExist

/-- The error text: fmt.Errorf("tag: %w", cause) prepends the tag. -/
def GoErr.message : GoErr → String
  | .notExist => "file does not exist"
  | .base m => m
  | .wrapped t c => t ++ ": " ++ c.message

/-- errors.Is against an arbitrary target: the wrap chain stays
inspectable. -/
def errIs : GoErr → GoErr → Bool
  | .wrapped t c, tgt => decide (GoErr.wrapped t c = tgt) || errIs c tgt
  | e, tgt => decide (e = tgt)

/-- The ambient inputs of one Load call.  `yamlLoad path` is the outcome
of k.Load(file.Provider(path), yaml.Parser()); `dotenvRead` yields the
raw KEY=value pairs of ".env" (gotenv output, before the transform
callback); `envRead` yields the os.Environ pairs.  All three stand for
external readers and parsers. -/
structure World where
  yamlLoad : String → Except GoErr Obj
  dotenvRead : Except GoErr (List (String × String))
  envRead : Except GoErr (List (String × String))

/-- loadFromYAML from src/config.go: an empty path contributes nothing, a
not-found error is swallowed, any other failure is wrapped with the
`load yaml` tag. -/
def loadFromYAML (w : World) (path : String) (k : Obj) : Except GoErr Obj :=
  if path = "" then .ok k
  else
    match w.yamlLoad path with
    | .ok t => .ok (mergeObj k t)
    | .error e => if e.isNotExist then .ok k else .error (.wrapped "load yaml" e)

/-- loadDotenv from src/config.go: missing ".env" contributes nothing,
any other failure is wrapped with the `load dotenv` tag. -/
def loadDotenvM (w : World) (k : Obj) : Except GoErr Obj :=
  match w.dotenvRead with
  | .ok pairs => .ok (mergeObj k (envPairsTree pairs))
  | .error e => if e.isNotExist then .ok k else .error (.wrapped "load dotenv" e)

/-- loadEnv from src/config.go; note there is no not-found exemption in
this stage. -/
def loadEnvM (w : World) (k : Obj) : Except GoErr Obj :=
  match w.envRead with
  | .ok pairs => .ok (mergeObj k (envPairsTree pairs))
  | .error e => .error (.wrapped "load env" e)

/-- The merged tree Load accumulates before unmarshalling: structured
file, then dotenv, then process environment, failing fast. -/
def loadTree (w : World) (path : String) : Except GoErr Obj :=
  match loadFromYAML w path [] with
  | .error e => .error e
  | .ok k1 =>
    match loadDotenvM w k1 with
    | .error e => .error e
    | .ok k2 => loadEnvM w k2

/-- Load from src/config.go; `dec` stands for k.Unmarshal("", c) at the
caller's target type, and its failure is wrapped with the `unmarshal`
tag. -/
def LoadM {α : Type} (w : World) (path : String) (dec : Obj → Except GoErr α) :
    Except GoErr α :=
  match loadTree w path with
  | .error e => .error e
  | .ok t =>
    match dec t with
    | .ok a => .ok a
    | .error e => .error (.wrapped "unmarshal" e)

/-- The options accumulator from src/options.go (its only field is the
structured-file path, zero value empty). -/
structure LoadOptions where
  withYaml : String

/-- options.apply: fold the option constructors over the zero value. -/
def applyOptions (fns : List (LoadOptions → LoadOptions)) : LoadOptions :=
  fns.foldl (fun o f => f o) ⟨""⟩

/-- WithLocalYAML from src/options.go: set the structured-file path (the
accumulator has no other field). -/
def withLocalYAML (path : String) : LoadOptions → LoadOptions :=
  fun _ => ⟨path⟩

/-- Load including option application, as the public call surface. -/
def LoadWith {α : Type} (w : World) (fns : List (LoadOptions → LoadOptions))
    (dec : Obj → Except GoErr α) : Except GoErr α :=
  LoadM w (applyOptions fns).withYaml dec

/-- Decoding of one target field that lives at tree path `p`: the
mapstructure decoder leaves the field's zero value when the path is
absent from the merged tree. -/
def materializeField (t : Obj) (p : List String) (zero : JVal) : JVal :=
  match lookupPath (JVal.obj t) p with
  | some v => v
  | none => zero

/-- Duration.UnmarshalText in state-passing form: `pd` stands for
time.ParseDuration (nanoseconds), `d` is the receiver going in, and the
result pairs the receiver going out with the returned error. -/
def unmarshalText (pd : String → Except GoErr Int) (d : Int) (text : String) :
    Int × Option GoErr :=
  match pd text with
  | .ok t => (t, none)
  | .error e => (d, some (.wrapped "can\x27t parse duration" e))

/-- The tree a Load accumulates when the structured file parses to `Y` and
the two environment-style sources read the raw pairs `D` and `E`. -/
def mergedTree (Y : Obj) (D E : List (String × String)) : Obj :=
  mergeObj (mergeObj (mergeObj [] Y) (envPairsTree D)) (envPairsTree E)

end Config

namespace Config

/-- Setting a key makes it visible. -/
theorem lookup_upsert_eq (o : Obj) (k : String) (v : JVal) :
    lookup (upsert o k v) k = some v := by
  induction o with
  | nil => simp [upsert, lookup]
  | cons kv rest ih =>
    obtain ⟨k0, v0⟩ := kv
    by_cases h : k0 = k
    · simp [upsert, lookup, h]
    · simp [upsert, lookup, h, ih]

/-- Setting a key leaves the other keys alone. -/
theorem lookup_upsert_ne (o : Obj) (k q : String) (v : JVal) (h : q ≠ k) :
    lookup (upsert o k v) q = lookup o q := by
  induction o with
  | nil => simp [upsert, lookup, Ne.symm h]
  | cons kv rest ih =>
    obtain ⟨k0, v0⟩ := kv
    by_cases h0 : k0 = k
    · subst h0
      simp [upsert, lookup, Ne.symm h]
    · simp [upsert, lookup, h0, ih]

/-- A key missing from the incoming map is untouched by the merge. -/
theorem lookup_mergeObj_none (s : Obj) : ∀ (d : Obj) (k : String),
    objNodup s = true → lookup s k = none → lookup (mergeObj d s) k = lookup d k := by
  induction s with
  | nil => intro d k _ _; simp [mergeObj]
  | cons kv rest ih =>
    intro d k hN hl
    obtain ⟨k0, v0⟩ := kv
    simp only [objNodup, Bool.and_eq_true] at hN
    by_cases h : k0 = k
    · simp [lookup, h] at hl
    · simp only [lookup, if_neg h] at hl
      simp only [mergeObj]
      rw [ih _ _ hN.2 hl, lookup_upsert_ne _ _ _ _ (fun hh => h hh.symm)]

/-- A key of the incoming map ends up merged over whatever the existing
map held there. -/
theorem lookup_mergeObj_some (s : Obj) : ∀ (d : Obj) (k : String) (sv : JVal),
    objNodup s = true → lookup s k = some sv →
    lookup (mergeObj d s) k =
      some (match lookup d k with | some dv => mergeVal dv sv | none => sv) := by
  induction s with
  | nil => intro d k sv _ hl; simp [lookup] at hl
  | cons kv rest ih =>
    intro d k sv hN hl
    obtain ⟨k0, v0⟩ := kv
    simp only [objNodup, Bool.and_eq_true] at hN
    obtain ⟨⟨h1, _h2⟩, h3⟩ := hN
    simp only [mergeObj]
    by_cases h : k0 = k
    · subst h
      simp [lookup] at hl
      subst hl
      have hrest : lookup rest k0 = none := by
        cases hx : lookup rest k0 <;> simp [hx] at h1 ⊢
      rw [lookup_mergeObj_none rest _ _ h3 hrest, lookup_upsert_eq]
    · simp only [lookup, if_neg h] at hl
      rw [ih _ _ _ h3 hl, lookup_upsert_ne _ _ _ _ (fun hh => h hh.symm)]

/-- Values stored under a nodup map are themselves nodup. -/
theorem valNodup_lookup (o : Obj) : ∀ (k : String) (v : JVal),
    objNodup o = true → lookup o k = some v → valNodup v = true := by
  induction o with
  | nil => intro k v _ h; simp [lookup] at h
  | cons kv rest ih =>
    intro k v hN hl
    obtain ⟨k0, v0⟩ := kv
    simp only [objNodup, Bool.and_eq_true] at hN
    by_cases h : k0 = k
    · simp only [lookup, if_pos h, Option.some.injEq] at hl
      subst hl; exact hN.1.2
    · simp only [lookup, if_neg h] at hl
      exact ih _ _ hN.2 hl

/-- Merging a non-map on either side just takes the incoming value. -/
theorem mergeVal_eq_right (d s : JVal) (h : isObjV d = false ∨ isObjV s = false) :
    mergeVal d s = s := by
  cases d <;> cases s <;> simp [mergeVal] <;> simp [isObjV] at h

/-- Two maps merge to a map of the two maps. -/
theorem mergeVal_obj_obj (a b : Obj) :
    mergeVal (JVal.obj a) (JVal.obj b) = JVal.obj (mergeObj a b) := by
  simp [mergeVal]

theorem isObjV_exists (d : JVal) (h : isObjV d = true) : ∃ o, d = JVal.obj o := by
  cases d <;> first | exact ⟨_, rfl⟩ | simp [isObjV] at h

/-- A path the incoming tree leaves untouched resolves to nothing there. -/
theorem lookupPath_none_of_untouched (p : List String) : ∀ s : JVal,
    untouched s p = true → lookupPath s p = none := by
  induction p with
  | nil => intro s hu; simp [untouched] at hu
  | cons k ks ih =>
    intro s hu
    cases s <;> simp [untouched] at hu <;> try simp [lookupPath]
    case obj o =>
      cases hso : lookup o k with
      | none => simp [lookupPath, hso]
      | some v =>
        rw [hso] at hu
        simp [lookupPath, hso, ih v hu]

/-- A non-map resolves no nonempty path. -/
theorem lookupPath_nonobj (d : JVal) (k : String) (ks : List String)
    (h : isObjV d = false) : lookupPath d (k :: ks) = none := by
  cases d <;> simp [lookupPath] <;> simp [isObjV] at h

end Config

namespace Config

/-- A non-map value of the incoming tree at path `p` wins outright. -/
theorem lookupPath_mergeVal_right (p : List String) : ∀ (d s v : JVal),
    valNodup s = true → lookupPath s p = some v → isObjV v = false →
    lookupPath (mergeVal d s) p = some v := by
  induction p with
  | nil =>
    intro d s v _ hl hv
    simp only [lookupPath, Option.some.injEq] at hl
    subst hl
    rw [mergeVal_eq_right _ _ (Or.inr hv)]
    simp [lookupPath]
  | cons k ks ih =>
    intro d s v hs hl hv
    cases s with
    | obj so =>
      simp only [lookupPath] at hl
      cases hso : lookup so k with
      | none => rw [hso] at hl; simp at hl
      | some sw =>
        rw [hso] at hl
        have hnods : objNodup so = true := by simpa [valNodup] using hs
        rcases Bool.eq_false_or_eq_true (isObjV d) with hd | hd
        · obtain ⟨do0, rfl⟩ := isObjV_exists d hd
          rw [mergeVal_obj_obj]
          simp only [lookupPath]
          rw [lookup_mergeObj_some so do0 k sw hnods hso]
          cases hd0 : lookup do0 k with
          | some dw =>
            exact ih dw sw v (valNodup_lookup so k sw hnods hso) hl hv
          | none => exact hl
        · rw [mergeVal_eq_right _ _ (Or.inl hd)]
          simp only [lookupPath, hso]
          exact hl
    | str s0 => simp [lookupPath] at hl
    | num l0 => simp [lookupPath] at hl
    | bool b0 => simp [lookupPath] at hl
    | null => simp [lookupPath] at hl
    | arr xs => simp [lookupPath] at hl

/-- Merging a tree that leaves `p` untouched does not change what `p`
resolves to. -/
theorem lookupPath_mergeVal_untouched (p : List String) : ∀ (d s : JVal),
    valNodup s = true → untouched s p = true →
    lookupPath (mergeVal d s) p = lookupPath d p := by
  induction p with
  | nil => intro d s _ hu; simp [untouched] at hu
  | cons k ks ih =>
    intro d s hs hu
    cases s with
    | obj so =>
      have hnods : objNodup so = true := by simpa [valNodup] using hs
      simp only [untouched] at hu
      rcases Bool.eq_false_or_eq_true (isObjV d) with hd | hd
      · obtain ⟨do0, rfl⟩ := isObjV_exists d hd
        rw [mergeVal_obj_obj]
        simp only [lookupPath]
        cases hso : lookup so k with
        | none => rw [lookup_mergeObj_none so do0 k hnods hso]
        | some sw =>
          rw [hso] at hu
          rw [lookup_mergeObj_some so do0 k sw hnods hso]
          cases hd0 : lookup do0 k with
          | some dw =>
            exact ih dw sw (valNodup_lookup so k sw hnods hso) hu
          | none =>
            exact lookupPath_none_of_untouched ks sw hu
      · rw [mergeVal_eq_right _ _ (Or.inl hd), lookupPath_nonobj d k ks hd]
        exact lookupPath_none_of_untouched (k :: ks) (JVal.obj so) (by simp [untouched, hu])
    | str s0 => simp [untouched] at hu
    | num l0 => simp [untouched] at hu
    | bool b0 => simp [untouched] at hu
    | null => simp [untouched] at hu
    | arr xs => simp [untouched] at hu

/-- When both trees resolve `p`, the merged tree resolves `p` to the merge
of the two values. -/
theorem lookupPath_mergeVal_both (p : List String) : ∀ (d s dv sv : JVal),
    valNodup s = true → lookupPath d p = some dv → lookupPath s p = some sv →
    lookupPath (mergeVal d s) p = some (mergeVal dv sv) := by
  induction p with
  | nil =>
    intro d s dv sv _ hd hs'
    simp only [lookupPath, Option.some.injEq] at hd hs'
    subst hd; subst hs'
    simp [lookupPath]
  | cons k ks ih =>
    intro d s dv sv hs hd hs'
    cases d with
    | obj do0 =>
      cases s with
      | obj so =>
        have hnods : objNodup so = true := by simpa [valNodup] using hs
        simp only [lookupPath] at hd hs'
        cases hdo : lookup do0 k with
        | none => rw [hdo] at hd; simp at hd
        | some dw =>
          rw [hdo] at hd
          cases hso : lookup so k with
          | none => rw [hso] at hs'; simp at hs'
          | some sw =>
            rw [hso] at hs'
            rw [mergeVal_obj_obj]
            simp only [lookupPath]
            rw [lookup_mergeObj_some so do0 k sw hnods hso, hdo]
            exact ih dw sw dv sv (valNodup_lookup so k sw hnods hso) hd hs'
      | str s0 => simp [lookupPath] at hs'
      | num l0 => simp [lookupPath] at hs'
      | bool b0 => simp [lookupPath] at hs'
      | null => simp [lookupPath] at hs'
      | arr xs => simp [lookupPath] at hs'
    | str s0 => simp [lookupPath] at hd
    | num l0 => simp [lookupPath] at hd
    | bool b0 => simp [lookupPath] at hd
    | null => simp [lookupPath] at hd
    | arr xs => simp [lookupPath] at hd

/-- A path absent from both trees stays absent after the merge. -/
theorem lookupPath_mergeVal_none (p : List String) : ∀ (d s : JVal),
    valNodup s = true → lookupPath d p = none → lookupPath s p = none →
    lookupPath (mergeVal d s) p = none := by
  induction p with
  | nil => intro d s _ hd _; simp [lookupPath] at hd
  | cons k ks ih =>
    intro d s hs hd hs'
    rcases Bool.eq_false_or_eq_true (isObjV s) with hso' | hso'
    · obtain ⟨so, rfl⟩ := isObjV_exists s hso'
      have hnods : objNodup so = true := by simpa [valNodup] using hs
      rcases Bool.eq_false_or_eq_true (isObjV d) with hdo' | hdo'
      · obtain ⟨do0, rfl⟩ := isObjV_exists d hdo'
        rw [mergeVal_obj_obj]
        simp only [lookupPath] at hd hs' ⊢
        cases hso : lookup so k with
        | none =>
          rw [lookup_mergeObj_none so do0 k hnods hso]
          rw [hso] at hs'
          cases hdo : lookup do0 k with
          | none => simp
          | some dw => rw [hdo] at hd; exact hd
        | some sw =>
          rw [hso] at hs'
          rw [lookup_mergeObj_some so do0 k sw hnods hso]
          cases hdo : lookup do0 k with
          | none => exact hs'
          | some dw =>
            rw [hdo] at hd
            exact ih dw sw (valNodup_lookup so k sw hnods hso) hd hs'
      · rw [mergeVal_eq_right _ _ (Or.inl hdo')]
        exact hs'
    · rw [mergeVal_eq_right _ _ (Or.inr hso')]
      exact hs'

/-- The first ingestion into the fresh store is lookup-equivalent to the
ingested tree itself. -/
theorem lookupPath_mergeObj_nil (Y : Obj) (h : objNodup Y = true) (k : String)
    (ks : List String) :
    lookupPath (JVal.obj (mergeObj [] Y)) (k :: ks) = lookupPath (JVal.obj Y) (k :: ks) := by
  simp only [lookupPath]
  cases hY : lookup Y k with
  | none => rw [lookup_mergeObj_none Y [] k h hY]; simp [lookup, hY]
  | some sv => rw [lookup_mergeObj_some Y [] k sv h hY]; simp [lookup, hY]

/-- mergeObj over an empty incoming map is the identity. -/
theorem mergeObj_nil_right (d : Obj) : mergeObj d [] = d := by
  simp [mergeObj]

end Config

namespace Config

/-- A list is its own leading segment inside any extension. -/
theorem hasPrefixL_append (l r : List Char) : hasPrefixL l (l ++ r) = true := by
  induction l with
  | nil => simp [hasPrefixL]
  | cons c cs ih => simp [hasPrefixL, ih]

/-- A leading segment occurs as a substring. -/
theorem hasSubstrL_of_pref (n s : List Char) (h : hasPrefixL n s = true) :
    hasSubstrL n s = true := by
  cases s with
  | nil =>
    cases n with
    | nil => simp [hasSubstrL]
    | cons c cs => simp [hasPrefixL] at h
  | cons c t => simp [hasSubstrL, h]

/-- The text of a wrapped error contains the wrapping tag. -/
theorem message_contains_tag (t : String) (c : GoErr) :
    hasSubstrS (GoErr.wrapped t c).message t = true := by
  simp only [GoErr.message, hasSubstrS]
  apply hasSubstrL_of_pref
  rw [String.data_append, String.data_append, List.append_assoc]
  exact hasPrefixL_append _ _

/-- errors.Is finds the error itself. -/
theorem errIs_refl (e : GoErr) : errIs e e = true := by
  cases e <;> simp [errIs]

/-- errors.Is unwraps one level of fmt.Errorf. -/
theorem errIs_wrapped (t : String) (c : GoErr) : errIs (GoErr.wrapped t c) c = true := by
  simp [errIs, errIs_refl]

/-- A Load whose three sources all succeed merges them in source order. -/
theorem loadTree_allok (Y : Obj) (D E : List (String × String)) (path : String)
    (hpath : path ≠ "") :
    loadTree ⟨fun _ => .ok Y, .ok D, .ok E⟩ path = .ok (mergedTree Y D E) := by
  simp [loadTree, loadFromYAML, loadDotenvM, loadEnvM, mergedTree, hpath]

/-- C2: Load fails fast: a non-not-found failure of the structured-file,
dotenv, environment or materialize stage aborts the whole load with one
error wrapped by that stage tag (`load yaml`, `load dotenv`, `load env`,
`unmarshal`); later stages are never consulted (the conclusion fixes the
result whatever the remaining oracle fields and decoder are), the message
contains the tag, and errors.Is still reaches the cause. -/
theorem C2_fail_fast {α : Type} :
    (∀ (w : World) (path : String) (dec : Obj → Except GoErr α) (e : GoErr),
      path ≠ "" → w.yamlLoad path = .error e → e.isNotExist = false →
      LoadM w path dec = .error (GoErr.wrapped "load yaml" e) ∧
      hasSubstrS (GoErr.wrapped "load yaml" e).message "load yaml" = true ∧
      errIs (GoErr.wrapped "load yaml" e) e = true) ∧
    (∀ (w : World) (path : String) (dec : Obj → Except GoErr α) (e : GoErr) (k1 : Obj),
      loadFromYAML w path [] = .ok k1 → w.dotenvRead = .error e → e.isNotExist = false →
      LoadM w path dec = .error (GoErr.wrapped "load dotenv" e) ∧
      hasSubstrS (GoErr.wrapped "load dotenv" e).message "load dotenv" = true ∧
      errIs (GoErr.wrapped "load dotenv" e) e = true) ∧
    (∀ (w : World) (path : String) (dec : Obj → Except GoErr α) (e : GoErr) (k1 k2 : Obj),
      loadFromYAML w path [] = .ok k1 → loadDotenvM w k1 = .ok k2 →
      w.envRead = .error e →
      LoadM w path dec = .error (GoErr.wrapped "load env" e) ∧
      hasSubstrS (GoErr.wrapped "load env" e).message "load env" = true ∧
      errIs (GoErr.wrapped "load env" e) e = true) ∧
    (∀ (w : World) (path : String) (dec : Obj → Except GoErr α) (e : GoErr) (t : Obj),
      loadTree w path = .ok t → dec t = .error e →
      LoadM w path dec = .error (GoErr.wrapped "unmarshal" e) ∧
      hasSubstrS (GoErr.wrapped "unmarshal" e).message "unmarshal" = true ∧
      errIs (GoErr.wrapped "unmarshal" e) e = true) := by
  refine ⟨?_, ?_, ?_, ?_⟩
  · intro w path dec e hp hy hne
    exact ⟨by simp [LoadM, loadTree, loadFromYAML, hp, hy, hne],
      message_contains_tag _ _, errIs_wrapped _ _⟩
  · intro w path dec e k1 hyok hd hne
    exact ⟨by simp [LoadM, loadTree, hyok, loadDotenvM, hd, hne],
      message_contains_tag _ _, errIs_wrapped _ _⟩
  · intro w path dec e k1 k2 hyok hdok he
    exact ⟨by simp [LoadM, loadTree, hyok, hdok, loadEnvM, he],
      message_contains_tag _ _, errIs_wrapped _ _⟩
  · intro w path dec e t ht hdec
    exact ⟨by simp [LoadM, ht, hdec], message_contains_tag _ _, errIs_wrapped _ _⟩

/-- Witness for C2 at four concrete worlds, one per failing stage. -/
theorem C2_fail_fast_witness :
    LoadM ⟨fun _ => .error (.base "bad yaml"), .ok [], .ok []⟩ "c.yaml"
        (fun t => Except.ok t) = .error (.wrapped "load yaml" (.base "bad yaml")) ∧
    LoadM ⟨fun _ => .error .notExist, .error (.base "bad dotenv"), .ok []⟩ ""
        (fun t => Except.ok t) = .error (.wrapped "load dotenv" (.base "bad dotenv")) ∧
    LoadM ⟨fun _ => .error .notExist, .ok [], .error (.base "bad env")⟩ ""
        (fun t => Except.ok t) = .error (.wrapped "load env" (.base "bad env")) ∧
    LoadM ⟨fun _ => .error .notExist, .ok [], .ok []⟩ ""
        (fun _ => (Except.error (GoErr.base "cannot decode") : Except GoErr Obj)) =
      .error (.wrapped "unmarshal" (.base "cannot decode")) :=
  ⟨((@C2_fail_fast Obj).1 ⟨fun _ => .error (.base "bad yaml"), .ok [], .ok []⟩ "c.yaml"
      (fun t => Except.ok t) (GoErr.base "bad yaml") (by decide) rfl rfl).1,
   ((@C2_fail_fast Obj).2.1 ⟨fun _ => .error .notExist, .error (.base "bad dotenv"), .ok []⟩ ""
      (fun t => Except.ok t) (GoErr.base "bad dotenv") [] rfl rfl rfl).1,
   ((@C2_fail_fast Obj).2.2.1 ⟨fun _ => .error .notExist, .ok [], .error (.base "bad env")⟩ ""
      (fun t => Except.ok t) (GoErr.base "bad env") [] [] rfl rfl rfl).1,
   ((@C2_fail_fast Obj).2.2.2 ⟨fun _ => .error .notExist, .ok [], .ok []⟩ ""
      (fun _ => Except.error (GoErr.base "cannot decode")) (GoErr.base "cannot decode")
      [] rfl rfl).1⟩

/-- C3: a structured-file path that resolves to a not-found error makes
Load behave exactly as if WithLocalYAML had been omitted, and a missing
`.env` file likewise leaves the dotenv stage contributing nothing and no
error. -/
theorem C3_not_found {α : Type} (w : World) (path : String)
    (dec : Obj → Except GoErr α) (e : GoErr) :
    (w.yamlLoad path = .error e → e.isNotExist = true →
      LoadWith w [withLocalYAML path] dec = LoadWith w [] dec) ∧
    (∀ k : Obj, w.dotenvRead = .error e → e.isNotExist = true →
      loadDotenvM w k = .ok k) := by
  constructor
  · intro hy hne
    by_cases hp : path = ""
    · rw [hp]
      rfl
    · simp [LoadWith, applyOptions, withLocalYAML, LoadM, loadTree, loadFromYAML,
        hp, hy, hne]
  · intro k hd hne
    simp [loadDotenvM, hd, hne]

/-- Witness for C3: one missing structured file, one missing dotenv. -/
theorem C3_not_found_witness :
    LoadWith ⟨fun _ => .error .notExist, .ok [], .ok []⟩ [withLocalYAML "missing.yaml"]
        (fun t => Except.ok t) =
      LoadWith ⟨fun _ => .error .notExist, .ok [], .ok []⟩ [] (fun t => Except.ok t) ∧
    loadDotenvM ⟨fun _ => .error .notExist, .error .notExist, .ok []⟩
        [("a", JVal.str "b")] = .ok [("a", JVal.str "b")] :=
  ⟨(C3_not_found ⟨fun _ => .error .notExist, .ok [], .ok []⟩ "missing.yaml"
      (fun t => Except.ok t) .notExist).1 rfl rfl,
   (C3_not_found ⟨fun _ => .error .notExist, .error .notExist, .ok []⟩ ""
      (fun t => Except.ok t) .notExist).2 _ rfl rfl⟩

/-- C9: WithLocalYAML with the empty path is the unconfigured default:
Load behaves exactly as with no options, and the structured-file oracle
is never consulted (two worlds differing only in it load identically). -/
theorem C9_empty_path {α : Type} (dec : Obj → Except GoErr α) :
    (∀ w : World, LoadWith w [withLocalYAML ""] dec = LoadWith w [] dec) ∧
    (∀ w w' : World, w.dotenvRead = w'.dotenvRead → w.envRead = w'.envRead →
      LoadWith w [withLocalYAML ""] dec = LoadWith w' [] dec) := by
  constructor
  · intro w; rfl
  · intro w w' hd he
    obtain ⟨wy, wd, we⟩ := w
    obtain ⟨wy', wd', we'⟩ := w'
    have hd' : wd = wd' := hd
    have he' : we = we' := he
    subst hd'; subst he'
    rfl

/-- Witness for C9: the two worlds differ in their structured-file
oracle, one of which would even fail, yet the loads agree. -/
theorem C9_empty_path_witness :
    LoadWith ⟨fun _ => .error (.base "boom"), .ok [("A", "1")], .ok []⟩
        [withLocalYAML ""] (fun t => Except.ok t) =
      LoadWith ⟨fun _ => .ok [("other", JVal.str "tree")], .ok [("A", "1")], .ok []⟩
        [] (fun t => Except.ok t) :=
  (C9_empty_path (fun t => Except.ok t)).2 _ _ rfl rfl

/-- C10: Duration.UnmarshalText sets the receiver to the parse result and
returns nil exactly when time.ParseDuration accepts the text; otherwise
the receiver is unchanged and the returned error carries the
`can't parse duration` message wrapping the parse failure. -/
theorem C10_duration_text (pd : String → Except GoErr Int) (d : Int) (s : String) :
    (∀ t, pd s = .ok t → unmarshalText pd d s = (t, none)) ∧
    (∀ e, pd s = .error e →
      unmarshalText pd d s = (d, some (GoErr.wrapped "can\x27t parse duration" e)) ∧
      hasSubstrS (GoErr.wrapped "can\x27t parse duration" e).message
        "can\x27t parse duration" = true ∧
      errIs (GoErr.wrapped "can\x27t parse duration" e) e = true) := by
  constructor
  · intro t h; simp [unmarshalText, h]
  · intro e h
    exact ⟨by simp [unmarshalText, h], message_contains_tag _ _, errIs_wrapped _ _⟩

/-- Witness for C10 with a concrete parse oracle, on one accepted and one
rejected text. -/
theorem C10_duration_text_witness :
    unmarshalText (fun s => if s = "5s" then Except.ok 5000000000 else
        Except.error (GoErr.base "bad")) 0 "5s" = (5000000000, none) ∧
    unmarshalText (fun s => if s = "5s" then Except.ok 5000000000 else
        Except.error (GoErr.base "bad")) 7 "x" =
      (7, some (GoErr.wrapped "can\x27t parse duration" (GoErr.base "bad"))) :=
  ⟨(C10_duration_text _ 0 "5s").1 5000000000 rfl,
   ((C10_duration_text _ 7 "x").2 (GoErr.base "bad") rfl).1⟩

end Config

namespace Config

/-- C1 as stated is false on the code: with `DATABASE=envstr` in the
process environment and `DATABASE__HOST=dotval` in the dotenv file, the
environment does not define the key path database.host while the dotenv
file does, yet after the load the merged tree holds nothing at that path
(the non-map environment value at the prefix `database` overwrote the
dotenv map wholesale), so a target field bound there receives its zero
value rather than the dotenv value. -/
theorem C1_cex :
    lookupPath (JVal.obj (envPairsTree [("DATABASE", "envstr")])) ["database", "host"] =
      none ∧
    lookupPath (JVal.obj (envPairsTree [("DATABASE__HOST", "dotval")]))
      ["database", "host"] = some (JVal.str "dotval") ∧
    loadTree ⟨fun _ => .error .notExist, .ok [("DATABASE__HOST", "dotval")],
        .ok [("DATABASE", "envstr")]⟩ "cfg.yaml" =
      .ok [("database", JVal.str "envstr")] ∧
    materializeField [("database", JVal.str "envstr")] ["database", "host"]
      (JVal.str "") = JVal.str "" :=
  ⟨rfl, rfl, rfl, rfl⟩

/-- C1 (amended): source precedence in the loaded tree, for nodup source
trees and a nonempty key path: a non-map environment value at the path
wins outright; if the environment tree leaves the path untouched (no
binding at it and no non-map value at a prefix of it), a non-map dotenv
value at the path wins; and if both environment-style trees leave the
path untouched, the path resolves to whatever the structured file holds
there.  The amendment adds the non-map/untouched provisos the
counterexample forces. -/
theorem C1_precedence (Y : Obj) (D E : List (String × String)) (path : String)
    (k : String) (ks : List String) (v : JVal)
    (hpath : path ≠ "")
    (hY : objNodup Y = true)
    (hD : objNodup (envPairsTree D) = true)
    (hE : objNodup (envPairsTree E) = true) :
    loadTree ⟨fun _ => .ok Y, .ok D, .ok E⟩ path = .ok (mergedTree Y D E) ∧
    (lookupPath (JVal.obj (envPairsTree E)) (k :: ks) = some v → isObjV v = false →
      lookupPath (JVal.obj (mergedTree Y D E)) (k :: ks) = some v) ∧
    (untouched (JVal.obj (envPairsTree E)) (k :: ks) = true →
      lookupPath (JVal.obj (envPairsTree D)) (k :: ks) = some v → isObjV v = false →
      lookupPath (JVal.obj (mergedTree Y D E)) (k :: ks) = some v) ∧
    (untouched (JVal.obj (envPairsTree E)) (k :: ks) = true →
      untouched (JVal.obj (envPairsTree D)) (k :: ks) = true →
      lookupPath (JVal.obj Y) (k :: ks) = some v →
      lookupPath (JVal.obj (mergedTree Y D E)) (k :: ks) = some v) := by
  refine ⟨loadTree_allok Y D E path hpath, ?_, ?_, ?_⟩
  · intro hl hv
    have h := lookupPath_mergeVal_right (k :: ks)
      (JVal.obj (mergeObj (mergeObj [] Y) (envPairsTree D)))
      (JVal.obj (envPairsTree E)) v (by simpa [valNodup] using hE) hl hv
    rw [mergeVal_obj_obj] at h
    exact h
  · intro hu hl hv
    have h1 := lookupPath_mergeVal_untouched (k :: ks)
      (JVal.obj (mergeObj (mergeObj [] Y) (envPairsTree D)))
      (JVal.obj (envPairsTree E)) (by simpa [valNodup] using hE) hu
    rw [mergeVal_obj_obj] at h1
    have h2 := lookupPath_mergeVal_right (k :: ks) (JVal.obj (mergeObj [] Y))
      (JVal.obj (envPairsTree D)) v (by simpa [valNodup] using hD) hl hv
    rw [mergeVal_obj_obj] at h2
    simp only [mergedTree]
    rw [h1]
    exact h2
  · intro huE huD hl
    have h1 := lookupPath_mergeVal_untouched (k :: ks)
      (JVal.obj (mergeObj (mergeObj [] Y) (envPairsTree D)))
      (JVal.obj (envPairsTree E)) (by simpa [valNodup] using hE) huE
    rw [mergeVal_obj_obj] at h1
    have h2 := lookupPath_mergeVal_untouched (k :: ks) (JVal.obj (mergeObj [] Y))
      (JVal.obj (envPairsTree D)) (by simpa [valNodup] using hD) huD
    rw [mergeVal_obj_obj] at h2
    simp only [mergedTree]
    rw [h1, h2, lookupPath_mergeObj_nil Y hY k ks]
    exact hl

/-- Witness for C1 on the three precedence clauses at one concrete world:
the environment wins database.host, the dotenv file wins database.port,
and the structured file keeps the key `extra` it alone defines. -/
theorem C1_precedence_witness :
    lookupPath (JVal.obj (mergedTree
        [("database", JVal.obj [("host", JVal.str "yamlhost")]),
         ("extra", JVal.str "fromyaml")]
        [("DATABASE__HOST", "dotenvhost"), ("DATABASE__PORT", "5433")]
        [("DATABASE__HOST", "envhost")]))
      ("database" :: ["host"]) = some (JVal.str "envhost") ∧
    lookupPath (JVal.obj (mergedTree
        [("database", JVal.obj [("host", JVal.str "yamlhost")]),
         ("extra", JVal.str "fromyaml")]
        [("DATABASE__HOST", "dotenvhost"), ("DATABASE__PORT", "5433")]
        [("DATABASE__HOST", "envhost")]))
      ("database" :: ["port"]) = some (JVal.str "5433") ∧
    lookupPath (JVal.obj (mergedTree
        [("database", JVal.obj [("host", JVal.str "yamlhost")]),
         ("extra", JVal.str "fromyaml")]
        [("DATABASE__HOST", "dotenvhost"), ("DATABASE__PORT", "5433")]
        [("DATABASE__HOST", "envhost")]))
      ("extra" :: []) = some (JVal.str "fromyaml") :=
  ⟨(C1_precedence
      [("database", JVal.obj [("host", JVal.str "yamlhost")]),
       ("extra", JVal.str "fromyaml")]
      [("DATABASE__HOST", "dotenvhost"), ("DATABASE__PORT", "5433")]
      [("DATABASE__HOST", "envhost")] "cfg.yaml" "database" ["host"]
      (JVal.str "envhost") (by decide) rfl rfl rfl).2.1 rfl rfl,
   (C1_precedence
      [("database", JVal.obj [("host", JVal.str "yamlhost")]),
       ("extra", JVal.str "fromyaml")]
      [("DATABASE__HOST", "dotenvhost"), ("DATABASE__PORT", "5433")]
      [("DATABASE__HOST", "envhost")] "cfg.yaml" "database" ["port"]
      (JVal.str "5433") (by decide) rfl rfl rfl).2.2.1 rfl rfl rfl,
   (C1_precedence
      [("database", JVal.obj [("host", JVal.str "yamlhost")]),
       ("extra", JVal.str "fromyaml")]
      [("DATABASE__HOST", "dotenvhost"), ("DATABASE__PORT", "5433")]
      [("DATABASE__HOST", "envhost")] "cfg.yaml" "extra" []
      (JVal.str "fromyaml") (by decide) rfl rfl rfl).2.2.2 rfl rfl rfl⟩

/-- C6 as stated is false on the code: the key path a.b is present only
in the earlier source, yet merging a later source that holds the non-map
value `x` at the prefix `a` erases it. -/
theorem C6_cex :
    lookupPath (JVal.obj [("a", JVal.obj [("b", JVal.num "1")])]) ["a", "b"] =
      some (JVal.num "1") ∧
    lookupPath (JVal.obj [("a", JVal.str "x")]) ["a", "b"] = none ∧
    mergeObj [("a", JVal.obj [("b", JVal.num "1")])] [("a", JVal.str "x")] =
      [("a", JVal.str "x")] ∧
    lookupPath (JVal.obj (mergeObj [("a", JVal.obj [("b", JVal.num "1")])]
        [("a", JVal.str "x")])) ["a", "b"] = none :=
  ⟨rfl, rfl, rfl, rfl⟩

/-- C6 (amended): merge is ordered overwrite that never deletes, at key
paths the later source does not shadow: a non-map value of the later
source at a path wins; a path the later source leaves untouched (no
binding at it, no non-map value at a prefix of it) keeps the earlier
value; when both sources resolve a path, the merged tree resolves it to
the key-by-key merge of the two values, and merging anything but two
maps takes the later value wholesale. -/
theorem C6_merge (d s : Obj) (p : List String) (hs : objNodup s = true) :
    (∀ v, lookupPath (JVal.obj s) p = some v → isObjV v = false →
      lookupPath (JVal.obj (mergeObj d s)) p = some v) ∧
    (untouched (JVal.obj s) p = true →
      lookupPath (JVal.obj (mergeObj d s)) p = lookupPath (JVal.obj d) p) ∧
    (∀ dv sv, lookupPath (JVal.obj d) p = some dv →
      lookupPath (JVal.obj s) p = some sv →
      lookupPath (JVal.obj (mergeObj d s)) p = some (mergeVal dv sv)) ∧
    (∀ a b : JVal, isObjV a = false ∨ isObjV b = false → mergeVal a b = b) := by
  refine ⟨?_, ?_, ?_, fun a b h => mergeVal_eq_right a b h⟩
  · intro v hl hv
    have h := lookupPath_mergeVal_right p (JVal.obj d) (JVal.obj s) v
      (by simpa [valNodup] using hs) hl hv
    rw [mergeVal_obj_obj] at h
    exact h
  · intro hu
    have h := lookupPath_mergeVal_untouched p (JVal.obj d) (JVal.obj s)
      (by simpa [valNodup] using hs) hu
    rw [mergeVal_obj_obj] at h
    exact h
  · intro dv sv hd' hs'
    have h := lookupPath_mergeVal_both p (JVal.obj d) (JVal.obj s) dv sv
      (by simpa [valNodup] using hs) hd' hs'
    rw [mergeVal_obj_obj] at h
    exact h

/-- Witness for C6 on concrete trees: the later map wins a.x, the key
`only` survives untouched, and the two maps at `a` merge key by key. -/
theorem C6_merge_witness :
    lookupPath (JVal.obj (mergeObj
        [("a", JVal.obj [("x", JVal.str "1")]), ("only", JVal.str "keep")]
        [("a", JVal.obj [("x", JVal.str "2"), ("y", JVal.str "3")])]))
      ["a", "x"] = some (JVal.str "2") ∧
    lookupPath (JVal.obj (mergeObj
        [("a", JVal.obj [("x", JVal.str "1")]), ("only", JVal.str "keep")]
        [("a", JVal.obj [("x", JVal.str "2"), ("y", JVal.str "3")])]))
      ["only"] = lookupPath (JVal.obj
        [("a", JVal.obj [("x", JVal.str "1")]), ("only", JVal.str "keep")]) ["only"] ∧
    lookupPath (JVal.obj (mergeObj
        [("a", JVal.obj [("x", JVal.str "1")]), ("only", JVal.str "keep")]
        [("a", JVal.obj [("x", JVal.str "2"), ("y", JVal.str "3")])]))
      ["a"] = some (mergeVal (JVal.obj [("x", JVal.str "1")])
        (JVal.obj [("x", JVal.str "2"), ("y", JVal.str "3")])) :=
  ⟨(C6_merge [("a", JVal.obj [("x", JVal.str "1")]), ("only", JVal.str "keep")]
      [("a", JVal.obj [("x", JVal.str "2"), ("y", JVal.str "3")])]
      ["a", "x"] rfl).1 (JVal.str "2") rfl rfl,
   (C6_merge [("a", JVal.obj [("x", JVal.str "1")]), ("only", JVal.str "keep")]
      [("a", JVal.obj [("x", JVal.str "2"), ("y", JVal.str "3")])]
      ["only"] rfl).2.1 rfl,
   (C6_merge [("a", JVal.obj [("x", JVal.str "1")]), ("only", JVal.str "keep")]
      [("a", JVal.obj [("x", JVal.str "2"), ("y", JVal.str "3")])]
      ["a"] rfl).2.2.1 (JVal.obj [("x", JVal.str "1")])
      (JVal.obj [("x", JVal.str "2"), ("y", JVal.str "3")]) rfl rfl⟩

/-- C7: every raw key of an environment-style source is fully
lower-cased by the transform, while a load whose environment-style
sources are empty resolves every nonempty path exactly as the structured
file authored it, casing included. -/
theorem C7_key_casing :
    (∀ k v : String, (envTransform k v).1 = lowerKey k) ∧
    (∀ (Y : Obj) (path : String), path ≠ "" → objNodup Y = true →
      loadTree ⟨fun _ => .ok Y, .ok [], .ok []⟩ path = .ok (mergeObj [] Y) ∧
      ∀ (k : String) (ks : List String),
        lookupPath (JVal.obj (mergeObj [] Y)) (k :: ks) =
          lookupPath (JVal.obj Y) (k :: ks)) := by
  constructor
  · intro k v
    simp only [envTransform]
    split
    · rfl
    · split
      · rfl
      · rfl
  · intro Y path hp hY
    refine ⟨?_, fun k ks => lookupPath_mergeObj_nil Y hY k ks⟩
    simp [loadTree, loadFromYAML, loadDotenvM, loadEnvM, envPairsTree, hp,
      mergeObj_nil_right]

/-- Witness for C7 with a mixed-case structured file and the end-to-end
casing example key. -/
theorem C7_key_casing_witness :
    (envTransform "DATABASE__HOST" "localhost").1 = lowerKey "DATABASE__HOST" ∧
    loadTree ⟨fun _ => .ok [("MixedCase", JVal.str "kept")], .ok [], .ok []⟩
        "cfg.yaml" = .ok (mergeObj [] [("MixedCase", JVal.str "kept")]) ∧
    lookupPath (JVal.obj (mergeObj [] [("MixedCase", JVal.str "kept")]))
        ["MixedCase"] =
      lookupPath (JVal.obj [("MixedCase", JVal.str "kept")]) ["MixedCase"] :=
  ⟨C7_key_casing.1 "DATABASE__HOST" "localhost",
   (C7_key_casing.2 [("MixedCase", JVal.str "kept")] "cfg.yaml" (by decide) rfl).1,
   (C7_key_casing.2 [("MixedCase", JVal.str "kept")] "cfg.yaml" (by decide) rfl).2
     "MixedCase" []⟩

/-- C8: a key path absent from the structured file, the dotenv file and
the environment resolves to nothing in the merged tree, Load succeeds,
and a field bound to that path is left at its zero value. -/
theorem C8_absent_zero (Y : Obj) (D E : List (String × String)) (path : String)
    (p : List String) (zero : JVal)
    (hpath : path ≠ "")
    (hY : objNodup Y = true)
    (hD : objNodup (envPairsTree D) = true)
    (hE : objNodup (envPairsTree E) = true)
    (hpY : lookupPath (JVal.obj Y) p = none)
    (hpD : lookupPath (JVal.obj (envPairsTree D)) p = none)
    (hpE : lookupPath (JVal.obj (envPairsTree E)) p = none) :
    loadTree ⟨fun _ => .ok Y, .ok D, .ok E⟩ path = .ok (mergedTree Y D E) ∧
    lookupPath (JVal.obj (mergedTree Y D E)) p = none ∧
    LoadM ⟨fun _ => .ok Y, .ok D, .ok E⟩ path
      (fun t => .ok (materializeField t p zero)) = .ok zero := by
  cases p with
  | nil => simp [lookupPath] at hpY
  | cons k ks =>
    have h0 : lookupPath (JVal.obj (mergeObj [] Y)) (k :: ks) = none := by
      have h := lookupPath_mergeVal_none (k :: ks) (JVal.obj []) (JVal.obj Y)
        (by simpa [valNodup] using hY) (by simp [lookupPath, lookup]) hpY
      rw [mergeVal_obj_obj] at h
      exact h
    have h1 : lookupPath (JVal.obj (mergeObj (mergeObj [] Y) (envPairsTree D)))
        (k :: ks) = none := by
      have h := lookupPath_mergeVal_none (k :: ks) (JVal.obj (mergeObj [] Y))
        (JVal.obj (envPairsTree D)) (by simpa [valNodup] using hD) h0 hpD
      rw [mergeVal_obj_obj] at h
      exact h
    have h2 : lookupPath (JVal.obj (mergedTree Y D E)) (k :: ks) = none := by
      have h := lookupPath_mergeVal_none (k :: ks)
        (JVal.obj (mergeObj (mergeObj [] Y) (envPairsTree D)))
        (JVal.obj (envPairsTree E)) (by simpa [valNodup] using hE) h1 hpE
      rw [mergeVal_obj_obj] at h
      exact h
    refine ⟨loadTree_allok Y D E path hpath, h2, ?_⟩
    simp [LoadM, loadTree_allok Y D E path hpath, materializeField, h2]

/-- Witness for C8 at a world where every source is nonempty but none
defines the path `missing`. -/
theorem C8_absent_zero_witness :
    LoadM ⟨fun _ => .ok [("a", JVal.str "1")], .ok [("B", "2")], .ok [("C", "3")]⟩
      "cfg.yaml" (fun t => .ok (materializeField t ["missing"] (JVal.num "0"))) =
      .ok (JVal.num "0") :=
  (C8_absent_zero [("a", JVal.str "1")] [("B", "2")] [("C", "3")] "cfg.yaml"
    ["missing"] (JVal.num "0") (by decide) rfl rfl rfl rfl rfl rfl).2.2

end Config

namespace Config

/-- C4 as stated is false on the code: for the value consisting of a
space and an empty JSON object, the trimmed value starts with a brace,
ends with a brace and parses as a JSON object (json.Unmarshal skips
surrounding whitespace), so the claim demands a map result; but the code
tests the brace prefix on the untrimmed value, so the transform returns
the original string. -/
theorem C4_cex :
    trimSpace " \x7b\x7d" = "\x7b\x7d" ∧
    hasPrefixS (trimSpace " \x7b\x7d") "\x7b" = true ∧
    hasSuffixS (trimSpace " \x7b\x7d") "\x7d" = true ∧
    jsonParseObj " \x7b\x7d" = some [] ∧
    envTransform "K" " \x7b\x7d" = ("k", JVal.str " \x7b\x7d") :=
  ⟨rfl, rfl, rfl, rfl, rfl⟩

/-- C4 (amended): value coercion proceeds in order on the raw, untrimmed
value: if it starts with a brace, ends with a brace and parses as a JSON
object, the result is that map; else if it starts with a bracket, ends
with a bracket and parses as a JSON array, the result is that sequence;
otherwise the result is the original string unchanged. -/
theorem C4_value_coercion (k v : String) :
    (∀ m, hasPrefixS v "\x7b" = true → hasSuffixS v "\x7d" = true →
      jsonParseObj v = some m → envTransform k v = (lowerKey k, JVal.obj m)) ∧
    (∀ a, ((hasPrefixS v "\x7b" && hasSuffixS v "\x7d") = false ∨ jsonParseObj v = none) →
      hasPrefixS v "[" = true → hasSuffixS v "]" = true →
      jsonParseArr v = some a → envTransform k v = (lowerKey k, JVal.arr a)) ∧
    (((hasPrefixS v "\x7b" && hasSuffixS v "\x7d") = false ∨ jsonParseObj v = none) →
      ((hasPrefixS v "[" && hasSuffixS v "]") = false ∨ jsonParseArr v = none) →
      envTransform k v = (lowerKey k, JVal.str v)) := by
  refine ⟨?_, ?_, ?_⟩
  · intro m h1 h2 hp
    simp [envTransform, h1, h2, hp]
  · intro a hob h1 h2 hp
    rcases hob with hc | hn
    · simp [envTransform, hc, h1, h2, hp]
    · simp [envTransform, hn, h1, h2, hp]
  · intro hob har
    rcases hob with hc | hn
    · rcases har with hc2 | hn2
      · simp [envTransform, hc, hc2]
      · simp [envTransform, hc, hn2]
    · rcases har with hc2 | hn2
      · simp [envTransform, hn, hc2]
      · simp [envTransform, hn, hn2]

/-- Witness for C4 on one value of each coercion class. -/
theorem C4_value_coercion_witness :
    envTransform "FEATURE_FLAGS" "\x7b\"debug\": true\x7d" =
      (lowerKey "FEATURE_FLAGS", JVal.obj [("debug", JVal.bool true)]) ∧
    envTransform "LIST" "[1, 2]" =
      (lowerKey "LIST", JVal.arr [JVal.num "1", JVal.num "2"]) ∧
    envTransform "HOST" "localhost" = (lowerKey "HOST", JVal.str "localhost") :=
  ⟨(C4_value_coercion "FEATURE_FLAGS" "\x7b\"debug\": true\x7d").1
      [("debug", JVal.bool true)] rfl rfl rfl,
   (C4_value_coercion "LIST" "[1, 2]").2.1 [JVal.num "1", JVal.num "2"]
      (Or.inl rfl) rfl rfl rfl,
   (C4_value_coercion "HOST" "localhost").2.2 (Or.inl rfl) (Or.inl rfl)⟩

/-- C5: the transform is a total function with no error outcome in its
type: the key is always the lower-cased input, the value is always a
parsed map, a parsed sequence or exactly the original string, and in
particular the malformed JSON-looking value `[` comes back as the
literal string `[`. -/
theorem C5_transform_total (k v : String) :
    (envTransform k v).1 = lowerKey k ∧
    ((∃ m, (envTransform k v).2 = JVal.obj m) ∨
     (∃ a, (envTransform k v).2 = JVal.arr a) ∨
     (envTransform k v).2 = JVal.str v) ∧
    envTransform k "[" = (lowerKey k, JVal.str "[") := by
  refine ⟨?_, ?_, ?_⟩
  · simp only [envTransform]
    split
    · rfl
    · split
      · rfl
      · rfl
  · simp only [envTransform]
    split
    · exact Or.inl ⟨_, rfl⟩
    · split
      · exact Or.inr (Or.inl ⟨_, rfl⟩)
      · exact Or.inr (Or.inr rfl)
  · rfl

end Config
